import Mathlib

/-!
Shallow embedding of the subdataset/VRT locator-rewriting core of
`src/runtimes/eoapi/raster/eoapi/raster/app.py`.

The embedded pieces are:
* `ReaderParams.__init__` (lines 75-100): builds the `reader_options` bag.
* `CustomReader.__attrs_post_init__` (lines 108-121): rewrites `self.input`
  into a `vrt:///vsicurl/...` locator.
* `ItemAssetIdParams` (lines 314-353): resolves a STAC asset href and applies
  the same rewriting.
* `SdsParams` (lines 372-406): applies the same rewriting to an external url.

Python primitives are modelled faithfully:
* `str(band)` for a Python `int` is Lean's `toString : Int → String`
  (decimal digits, with a leading `-` for negatives), matching `Int.repr`.
* `",".join(...)` and the `&`-joining inside `urllib.parse.urlencode` are
  `joinWith`.
* `urllib.parse.urlencode(d, safe=",")` percent-encodes keys and values with
  `quote_plus` (space becomes `+`, ASCII letters, digits, `_`, `.`, `-`, `~`
  and the extra safe characters stay literal, everything else becomes
  percent-encoded UTF-8 bytes with uppercase hex), joining `k=v` pairs with
  `&` in insertion order; modelled by `urlencode`.
* Python truthiness on `Optional[str]` / `Optional[List[int]]` (`None` and
  empty values are falsy) is modelled by explicit matches on `Option` with
  emptiness tests, exactly as the `if subdataset_name:` guards behave.
-/

namespace EoRaster

/-- UTF-8 encoding of a single character, as a list of byte values.
Python percent-encodes the UTF-8 bytes of non-safe characters. -/
def utf8Bytes (c : Char) : List Nat :=
  let n := c.toNat
  if n < 0x80 then [n]
  else if n < 0x800 then
    [0xC0 ||| (n >>> 6), 0x80 ||| (n &&& 0x3F)]
  else if n < 0x10000 then
    [0xE0 ||| (n >>> 12), 0x80 ||| ((n >>> 6) &&& 0x3F), 0x80 ||| (n &&& 0x3F)]
  else
    [0xF0 ||| (n >>> 18), 0x80 ||| ((n >>> 12) &&& 0x3F),
      0x80 ||| ((n >>> 6) &&& 0x3F), 0x80 ||| (n &&& 0x3F)]

/-- Uppercase hexadecimal digit, as used by Python's `urllib.parse.quote`. -/
def hexDigitChar (n : Nat) : Char :=
  if n < 10 then Char.ofNat (48 + n) else Char.ofNat (55 + n)

/-- Percent-encoding of one byte value: `%XY` with uppercase hex. -/
def pctEncodeByte (b : Nat) : String :=
  String.mk ['%', hexDigitChar (b / 16), hexDigitChar (b % 16)]

/-- Characters `urllib.parse.quote` never encodes: ASCII letters, digits,
and `_`, `.`, `-`, `~`. -/
def alwaysSafeChar (c : Char) : Bool :=
  (('A' ≤ c && c ≤ 'Z') || ('a' ≤ c && c ≤ 'z') || ('0' ≤ c && c ≤ '9')
    || c = '_' || c = '.' || c = '-' || c = '~')

/-- Concatenation of a list of strings. -/
def concatAll : List String → String
  | [] => ""
  | s :: rest => s ++ concatAll rest

/-- Python's `sep.join(parts)`: parts joined by a separator. -/
def joinWith (sep : String) : List String → String
  | [] => ""
  | [s] => s
  | s :: r :: rest => s ++ sep ++ joinWith sep (r :: rest)

/-- How `quote_plus` with extra safe characters renders one character:
a space becomes `+`, safe characters stay literal, and any other character
becomes the percent-encoding of its UTF-8 bytes. -/
def quotePlusChar (safe : List Char) (c : Char) : String :=
  if c = ' ' then "+"
  else if alwaysSafeChar c || safe.contains c then String.mk [c]
  else concatAll ((utf8Bytes c).map pctEncodeByte)

/-- Python's `urllib.parse.quote_plus(s, safe)`. -/
def quotePlus (safe : List Char) (s : String) : String :=
  concatAll (s.data.map (quotePlusChar safe))

/-- Python's `urllib.parse.urlencode(params, safe)` on an insertion-ordered
mapping of string keys to string values (the only shape the source builds):
`k=v` pairs with `quote_plus`-encoded keys and values, joined by `&`. -/
def urlencode (safe : List Char) (params : List (String × String)) : String :=
  joinWith "&" (params.map fun kv => quotePlus safe kv.1 ++ "=" ++ quotePlus safe kv.2)

/-- Truthiness of Python's `Optional[str]`: `None` and `""` are falsy. -/
def strTruthy : Option String → Bool
  | none => false
  | some s => !s.isEmpty

/-- Truthiness of Python's `Optional[List[int]]`: `None` and `[]` are falsy. -/
def bandsTruthy : Option (List Int) → Bool
  | none => false
  | some l => !l.isEmpty

/-- Python `",".join([str(band) for band in bands])`. -/
def joinBands (bands : List Int) : String :=
  joinWith "," (bands.map toString)

/-- The `vrt_params` dict built by each of the three rewriting sites:
`sd_name` from a truthy `subdataset_name`, then `bands` from a truthy
`subdataset_bands`, in insertion order. -/
def mkVrtParams (subdataset_name : Option String)
    (subdataset_bands : Option (List Int)) : List (String × String) :=
  (match subdataset_name with
    | some s => if s.isEmpty then [] else [("sd_name", s)]
    | none => []) ++
  (match subdataset_bands with
    | some l => if l.isEmpty then [] else [("bands", joinBands l)]
    | none => [])

/-- Embeds `SdsParams` (app.py lines 372-406), the external-dataset path
dependency.
Builds `vrt_params` from the optional subdataset query parameters and, when
non-empty, rewrites `url` to
`f"vrt:///vsicurl/\x7burl\x7d?\x7bparams\x7d"` with
`params = urlencode(vrt_params, safe=",")`; otherwise returns `url`
unchanged. -/
def SdsParams (url : String) (subdataset_name : Option String)
    (subdataset_bands : Option (List Int)) : String :=
  let vrt_params := mkVrtParams subdataset_name subdataset_bands
  if vrt_params.isEmpty then url
  else "vrt:///vsicurl/" ++ url ++ "?" ++ urlencode [','] vrt_params

/-- The rewriting body of `ItemAssetIdParams` (app.py lines 342-353), applied
to the already-resolved asset href: identical text to `SdsParams`. -/
def itemAssetRewrite (url : String) (subdataset_name : Option String)
    (subdataset_bands : Option (List Int)) : String :=
  let vrt_params := mkVrtParams subdataset_name subdataset_bands
  if vrt_params.isEmpty then url
  else "vrt:///vsicurl/" ++ url ++ "?" ++ urlencode [','] vrt_params

/-- Embeds `CustomReader.__attrs_post_init__` (app.py lines 108-121): the effect on
`self.input`, given the reader's optional `subdataset_name` and
`subdataset_bands` attributes: identical text to `SdsParams`. -/
def customReaderPostInit (input : String) (subdataset_name : Option String)
    (subdataset_bands : Option (List Int)) : String :=
  let vrt_params := mkVrtParams subdataset_name subdataset_bands
  if vrt_params.isEmpty then input
  else "vrt:///vsicurl/" ++ input ++ "?" ++ urlencode [','] vrt_params

/-- Values stored in the `reader_options` bag: `subdataset_name` maps to a
string, `subdataset_bands` to a typed list of integers (the Python dict is
heterogeneous). -/
inductive ReaderOptionValue where
  | str (s : String)
  | intList (l : List Int)
deriving DecidableEq, Repr

/-- Embeds `ReaderParams.__init__` (app.py lines 75-100): builds the
`reader_options` mapping from the optional subdataset query parameters;
keys in insertion order, values kept typed. -/
def readerParamsOptions (subdataset_name : Option String)
    (subdataset_bands : Option (List Int)) : List (String × ReaderOptionValue) :=
  (match subdataset_name with
    | some s => if s.isEmpty then [] else [("subdataset_name", ReaderOptionValue.str s)]
    | none => []) ++
  (match subdataset_bands with
    | some l => if l.isEmpty then [] else [("subdataset_bands", ReaderOptionValue.intList l)]
    | none => [])

/-- A character that `quote_plus` with the given extra safe characters
leaves literally unchanged: not a space, and either always-safe or listed
safe. -/
def keptLiteral (safe : List Char) (c : Char) : Bool :=
  (c != ' ') && (alwaysSafeChar c || safe.contains c)

/-- Modelled from the spec: the STAC item lookup collaborator (pystac) is
external to the repository; section 6 gives its interface as
`AssetDescriptor{href: string, absoluteHref: optional string}`, where
`absoluteHref` stands for the result of `asset_info.get_absolute_href()`. -/
structure AssetDescriptor where
  href : String
  absoluteHref : Option String

/-- Python `a or b` for an optional string `a` and a string `b`:
`None` and the empty string are falsy, so they fall through to `b`. -/
def pyOrStr (a : Option String) (b : String) : String :=
  match a with
  | some s => if s.isEmpty then b else s
  | none => b

/-- Line 340 of app.py:
`url = asset_info.get_absolute_href() or asset_info.href`. -/
def resolveAssetHref (a : AssetDescriptor) : String :=
  pyOrStr a.absoluteHref a.href

/-- The `subdataset_name` keyword argument that titiler passes to the reader
constructor from a `reader_options` bag: the bag entry when present, the
attrs default `None` otherwise. -/
def bagName (bag : List (String × ReaderOptionValue)) : Option String :=
  match bag.lookup "subdataset_name" with
  | some (ReaderOptionValue.str s) => some s
  | _ => none

/-- The `subdataset_bands` keyword argument that titiler passes to the
reader constructor from a `reader_options` bag: the bag entry when present,
the attrs default `None` otherwise. -/
def bagBands (bag : List (String × ReaderOptionValue)) : Option (List Int) :=
  match bag.lookup "subdataset_bands" with
  | some (ReaderOptionValue.intList l) => some l
  | _ => none

/-- Both selector encodings produced while handling one request on a
reader-dependency path: the `reader_options` bag built by `ReaderParams`,
and the reader's `input` after `CustomReader.__attrs_post_init__`. -/
structure RequestEncodings where
  reader_options : List (String × ReaderOptionValue)
  input : String
deriving DecidableEq

/-- One request on a path wired with `reader_dependency=ReaderParams` and a
`CustomReader`-based reader (the searches, collections and items factories,
app.py lines 200-288): the query parameters are parsed into the
`reader_options` bag, the factory passes the bag as keyword arguments to
the reader constructor, and the reader's post-init rewrites its `input`
from those attributes. -/
def itemTilePipeline (base : String) (subdataset_name : Option String)
    (subdataset_bands : Option (List Int)) : RequestEncodings :=
  let bag := readerParamsOptions subdataset_name subdataset_bands
  { reader_options := bag
  , input := customReaderPostInit base (bagName bag) (bagBands bag) }

/-- Exception-monad embedding of `SdsParams` (app.py lines 395-406): the
body contains no `raise`, so the embedding has no `throw` site; its error
branch is syntactically absent. -/
def SdsParamsE (url : String) (subdataset_name : Option String)
    (subdataset_bands : Option (List Int)) : Except String String := do
  let vrt_params := mkVrtParams subdataset_name subdataset_bands
  if vrt_params.isEmpty then
    return url
  else
    let params := urlencode [','] vrt_params
    return "vrt:///vsicurl/" ++ url ++ "?" ++ params

/-- Exception-monad embedding of `ReaderParams.__init__` (app.py lines
75-100): no `raise`, hence no `throw` site. -/
def readerParamsOptionsE (subdataset_name : Option String)
    (subdataset_bands : Option (List Int)) :
    Except String (List (String × ReaderOptionValue)) := do
  return readerParamsOptions subdataset_name subdataset_bands

end EoRaster

namespace EoRaster

/-- A kept-literal character is rendered as itself by `quotePlusChar`. -/
theorem quotePlusChar_eq (safe : List Char) (c : Char)
    (h : keptLiteral safe c = true) : quotePlusChar safe c = String.mk [c] := by
  have h' := h
  unfold keptLiteral at h'
  rw [Bool.and_eq_true] at h'
  obtain ⟨h1, h2⟩ := h'
  unfold quotePlusChar
  rw [if_neg (by simpa using h1), if_pos h2]

/-- Mapping `quotePlusChar` over kept-literal characters and concatenating
reproduces the original character list. -/
theorem concatAll_map_quote (safe : List Char) (l : List Char)
    (h : ∀ c ∈ l, keptLiteral safe c = true) :
    concatAll (l.map (quotePlusChar safe)) = String.mk l := by
  induction l with
  | nil => rfl
  | cons c l ih =>
    simp only [List.map_cons, concatAll]
    rw [quotePlusChar_eq safe c (h c (by simp)),
      ih (fun d hd => h d (by simp [hd]))]
    rfl

/-- A string of kept-literal characters is a fixed point of `quotePlus`. -/
theorem quotePlus_eq_self (safe : List Char) (s : String)
    (h : ∀ c ∈ s.data, keptLiteral safe c = true) : quotePlus safe s = s := by
  obtain ⟨l⟩ := s
  exact concatAll_map_quote safe l h

/-- Decimal digit characters are kept literal under safe list `[,]`. -/
theorem digitChar_kept (n : Nat) (h : n < 10) :
    keptLiteral [','] (Nat.digitChar n) = true := by
  interval_cases n <;> decide

/-- Every character that `Nat.toDigitsCore 10` produces (on top of a
kept-literal accumulator) is kept literal. -/
theorem toDigitsCore_kept :
    ∀ (fuel n : Nat) (acc : List Char),
      (∀ c ∈ acc, keptLiteral [','] c = true) →
      ∀ c ∈ Nat.toDigitsCore 10 fuel n acc, keptLiteral [','] c = true := by
  intro fuel
  induction fuel with
  | zero => intro n acc hacc; simpa [Nat.toDigitsCore] using hacc
  | succ fuel ih =>
    intro n acc hacc c hc
    simp only [Nat.toDigitsCore] at hc
    split at hc
    · rcases List.mem_cons.mp hc with h | h
      · subst h; exact digitChar_kept _ (Nat.mod_lt _ (by decide))
      · exact hacc _ h
    · refine ih _ _ ?_ _ hc
      intro d hd
      rcases List.mem_cons.mp hd with h | h
      · subst h; exact digitChar_kept _ (Nat.mod_lt _ (by decide))
      · exact hacc _ h

/-- Every character of `Nat.repr` is kept literal. -/
theorem natRepr_kept (n : Nat) :
    ∀ c ∈ (Nat.repr n).data, keptLiteral [','] c = true :=
  toDigitsCore_kept (n + 1) n [] (by simp)

/-- Every character of `toString` of an integer (decimal digits, possibly a
leading minus sign) is kept literal. -/
theorem intToString_kept (i : Int) :
    ∀ c ∈ (toString i).data, keptLiteral [','] c = true := by
  cases i with
  | ofNat m => exact natRepr_kept m
  | negSucc m =>
    intro c hc
    have hd : (toString (Int.negSucc m)).data = '-' :: (Nat.repr (m + 1)).data := rfl
    rw [hd] at hc
    rcases List.mem_cons.mp hc with h | h
    · subst h; decide
    · exact natRepr_kept _ _ h

/-- Comma-joining kept-literal strings yields a kept-literal string. -/
theorem joinWith_comma_kept (ls : List String)
    (h : ∀ s ∈ ls, ∀ c ∈ s.data, keptLiteral [','] c = true) :
    ∀ c ∈ (joinWith "," ls).data, keptLiteral [','] c = true := by
  induction ls with
  | nil => intro c hc; simp [joinWith] at hc
  | cons s rest ih =>
    cases rest with
    | nil => exact fun c hc => h s (by simp) c hc
    | cons t rest' =>
      intro c hc
      simp only [joinWith, String.data_append] at hc
      rcases List.mem_append.mp hc with h1 | h2
      · rcases List.mem_append.mp h1 with ha | hb
        · exact h s (by simp) c ha
        · have : c = ',' := by simpa using hb
          subst this; decide
      · exact ih (fun u hu => h u (by simp [hu])) c h2

/-- Every character of the comma-joined band list is kept literal. -/
theorem joinBands_kept (bs : List Int) :
    ∀ c ∈ (joinBands bs).data, keptLiteral [','] c = true := by
  unfold joinBands
  apply joinWith_comma_kept
  intro s hs
  rcases List.mem_map.mp hs with ⟨i, _, rfl⟩
  exact intToString_kept i

end EoRaster

namespace EoRaster

/-- C1: for base locator `s3://bucket/a.tif` and a selector with name `sd1`
and bands `[1, 2]`, `SdsParams` returns exactly
`vrt:///vsicurl/s3://bucket/a.tif?sd_name=sd1&bands=1,2`: the fixed prefixes
verbatim, `sd_name` before `bands`, and the bands comma-joined. -/
theorem sdsParams_example_sd1_bands12 :
    SdsParams "s3://bucket/a.tif" (some "sd1") (some [1, 2]) =
      "vrt:///vsicurl/s3://bucket/a.tif?sd_name=sd1&bands=1,2" := by
  decide

/-- C2: with both selector fields absent, `SdsParams` returns the base
locator unchanged and `ReaderParams` builds an empty options mapping. -/
theorem sdsParams_absent_selector_id :
    ∀ base : String,
      SdsParams base none none = base ∧ readerParamsOptions none none = [] :=
  fun _ => ⟨rfl, rfl⟩

/-- C4: for every base locator, a selector with name `x` and no bands gives
exactly `vrt:///vsicurl/` ++ base ++ `?sd_name=x`, with no bands parameter
in the query string. -/
theorem sdsParams_name_only :
    ∀ base : String,
      SdsParams base (some "x") none = "vrt:///vsicurl/" ++ base ++ "?sd_name=x" := by
  intro base
  show "vrt:///vsicurl/" ++ base ++ "?" ++ urlencode [','] [("sd_name", "x")] =
    "vrt:///vsicurl/" ++ base ++ "?sd_name=x"
  rw [show urlencode [','] [("sd_name", "x")] = "sd_name=x" from by decide,
    String.append_assoc, show ("?" ++ "sd_name=x" : String) = "?sd_name=x" from by decide]

/-- C7: the three copies of the subdataset-rewriting logic, in
`CustomReader.__attrs_post_init__`, in `ItemAssetIdParams` and in
`SdsParams`, are extensionally equal on every base locator, optional name
and optional band list. -/
theorem rewrite_copies_agree :
    ∀ (base : String) (n : Option String) (bs : Option (List Int)),
      customReaderPostInit base n bs = SdsParams base n bs ∧
      itemAssetRewrite base n bs = SdsParams base n bs :=
  fun _ _ _ => ⟨rfl, rfl⟩

/-- C9: an empty-string name together with an empty band list is treated
exactly like an absent selector: the locator is returned unchanged by all
three rewriting sites and the options mapping is empty. -/
theorem empty_selector_like_absent :
    ∀ base : String,
      SdsParams base (some "") (some []) = base ∧
      customReaderPostInit base (some "") (some []) = base ∧
      itemAssetRewrite base (some "") (some []) = base ∧
      readerParamsOptions (some "") (some []) = [] :=
  fun _ => ⟨rfl, rfl, rfl, rfl⟩

/-- C3: for every non-empty band list, the rendered query parameter is the
bands joined by literal commas in caller-supplied order as decimal strings
(`quote_plus` with `safe=","` leaves the comma-joined value unchanged, so
the commas are not percent-encoded), and the final locator carries exactly
`bands=` followed by that comma-joined value. -/
theorem bands_param_comma_joined (base : String) (bs : List Int)
    (h : bs ≠ []) :
    quotePlus [','] (joinBands bs) = joinBands bs ∧
    SdsParams base none (some bs) =
      "vrt:///vsicurl/" ++ base ++ "?" ++ ("bands=" ++ joinBands bs) := by
  have hq : quotePlus [','] (joinBands bs) = joinBands bs :=
    quotePlus_eq_self _ _ (joinBands_kept bs)
  refine ⟨hq, ?_⟩
  have hne : bs.isEmpty = false := by
    cases bs with
    | nil => exact absurd rfl h
    | cons b l => rfl
  unfold SdsParams mkVrtParams
  simp only [hne, Bool.false_eq_true, if_false, List.nil_append,
    List.isEmpty_cons, urlencode, joinWith, List.map_cons, List.map_nil, hq]
  rw [show quotePlus [','] "bands" = "bands" from by decide]
  rw [show ("bands" ++ "=" : String) = "bands=" from by decide]

/-- Witness for C3 at bands `[4, 3, 2]`, rendering as `bands=4,3,2`. -/
theorem bands_param_comma_joined_witness :
    [4, 3, 2] ≠ ([] : List Int) ∧
    SdsParams "s3://bucket/a.tif" none (some [4, 3, 2]) =
      "vrt:///vsicurl/" ++ "s3://bucket/a.tif" ++ "?" ++
        ("bands=" ++ joinBands [4, 3, 2]) :=
  ⟨by decide,
    (bands_param_comma_joined "s3://bucket/a.tif" [4, 3, 2] (by decide)).2⟩

/-- C6 as stated is false: when the absolute href is present but empty,
line 340's Python `or` treats it as falsy and resolution falls back to the
plain href instead of returning the (present) absolute href. -/
theorem resolveAssetHref_empty_absolute :
    (AssetDescriptor.mk "./a.tif" (some "")).absoluteHref = some "" ∧
    resolveAssetHref (AssetDescriptor.mk "./a.tif" (some "")) ≠ "" ∧
    resolveAssetHref (AssetDescriptor.mk "./a.tif" (some "")) = "./a.tif" :=
  ⟨rfl, by decide, rfl⟩

/-- C6 amended: asset href resolution returns the absolute href when a
non-empty one is present, and falls back to the plain href both when the
absolute href is absent and when it is present but empty (Python's `or`
tests truthiness, so an empty absolute href also falls back). -/
theorem resolveAssetHref_spec (a : AssetDescriptor) :
    (∀ s, a.absoluteHref = some s → ¬s.isEmpty → resolveAssetHref a = s) ∧
    (∀ s, a.absoluteHref = some s → s.isEmpty → resolveAssetHref a = a.href) ∧
    (a.absoluteHref = none → resolveAssetHref a = a.href) := by
  refine ⟨?_, ?_, ?_⟩
  · intro s hs hne
    simp [resolveAssetHref, pyOrStr, hs, hne]
  · intro s hs he
    simp [resolveAssetHref, pyOrStr, hs, he]
  · intro hn
    simp [resolveAssetHref, pyOrStr, hn]

/-- C5: the options builder maps a bands-only selector to exactly
`subdataset_bands` bound to the typed integer list, with no
`subdataset_name` key; in general a non-empty band list always lands under
the `subdataset_bands` key, kept as a typed list. -/
theorem readerOptions_bands :
    readerParamsOptions none (some [5]) =
      [("subdataset_bands", ReaderOptionValue.intList [5])] ∧
    ∀ (n : Option String) (bs : List Int), bs ≠ [] →
      ("subdataset_bands", ReaderOptionValue.intList bs) ∈
        readerParamsOptions n (some bs) := by
  refine ⟨rfl, ?_⟩
  intro n bs h
  have hne : bs.isEmpty = false := by
    cases bs with
    | nil => exact absurd rfl h
    | cons b l => rfl
  simp [readerParamsOptions, hne]

/-- Witness for C5 at a selector with a name and bands `[7, 8]`. -/
theorem readerOptions_bands_witness :
    ("subdataset_bands", ReaderOptionValue.intList [7, 8]) ∈
      readerParamsOptions (some "nm") (some [7, 8]) :=
  readerOptions_bands.2 (some "nm") [7, 8] (by decide)

/-- The `reader_options` bag round-trips the selector into the reader: the
rewritten input on a reader-dependency path agrees with `SdsParams`. -/
theorem pipeline_input_eq (base : String) (n : Option String)
    (bs : Option (List Int)) :
    (itemTilePipeline base n bs).input = SdsParams base n bs := by
  rcases n with _ | s <;> rcases bs with _ | l
  · rfl
  · by_cases hl : l.isEmpty <;>
      simp [itemTilePipeline, readerParamsOptions, bagName, bagBands,
        List.lookup, customReaderPostInit, SdsParams, mkVrtParams, hl]
  · by_cases hs : s.isEmpty <;>
      simp [itemTilePipeline, readerParamsOptions, bagName, bagBands,
        List.lookup, customReaderPostInit, SdsParams, mkVrtParams, hs]
  · by_cases hs : s.isEmpty <;> by_cases hl : l.isEmpty <;>
      simp [itemTilePipeline, readerParamsOptions, bagName, bagBands,
        List.lookup, customReaderPostInit, SdsParams, mkVrtParams, hs, hl]

/-- A truthy selector makes `vrt_params` non-empty. -/
theorem mkVrtParams_nonempty (n : Option String) (bs : Option (List Int))
    (h : (strTruthy n || bandsTruthy bs) = true) :
    (mkVrtParams n bs).isEmpty = false := by
  rcases n with _ | s <;> rcases bs with _ | l <;>
    simp [strTruthy, bandsTruthy] at h
  · simp [mkVrtParams, h]
  · simp [mkVrtParams, h]
  · rcases h with h | h
    · simp [mkVrtParams, h]
    · cases hse : s.isEmpty <;> simp [mkVrtParams, h, hse]

/-- A truthy selector makes `ReaderParams` build a non-empty bag. -/
theorem readerParamsOptions_nonempty (n : Option String)
    (bs : Option (List Int)) (h : (strTruthy n || bandsTruthy bs) = true) :
    readerParamsOptions n bs ≠ [] := by
  rcases n with _ | s <;> rcases bs with _ | l <;>
    simp [strTruthy, bandsTruthy] at h
  · simp [readerParamsOptions, h]
  · simp [readerParamsOptions, h]
  · rcases h with h | h
    · simp [readerParamsOptions, h]
    · cases hse : s.isEmpty <;> simp [readerParamsOptions, h, hse]

/-- A truthy selector always rewrites the locator to a strictly longer
string, so the result differs from the base. -/
theorem sdsParams_ne_base (base : String) (n : Option String)
    (bs : Option (List Int)) (h : (strTruthy n || bandsTruthy bs) = true) :
    SdsParams base n bs ≠ base := by
  have hne := mkVrtParams_nonempty n bs h
  intro heq
  have hlen := congrArg String.length heq
  rw [SdsParams] at hlen
  simp only [hne, Bool.false_eq_true, if_false, String.length_append,
    show ("vrt:///vsicurl/" : String).length = 15 from rfl,
    show ("?" : String).length = 1 from rfl] at hlen
  omega

/-- C8 as stated is false: on a reader-dependency path with a name selector,
one request both constructs a non-empty options bag and rewrites the
locator into a VRT query string. -/
theorem single_encoding_claim_fails :
    (itemTilePipeline "s3://bucket/a.tif" (some "sd1") none).reader_options ≠ [] ∧
    (itemTilePipeline "s3://bucket/a.tif" (some "sd1") none).input ≠
      "s3://bucket/a.tif" := by
  decide

/-- C8 amended: on the paths wired with `reader_dependency=ReaderParams`,
a truthy selector leads to both encodings on the same request, applied in
sequence: the options bag is constructed (non-empty) and the reader then
rewrites the locator from the bag's values, producing exactly the VRT
locator the direct URL-rewriting paths produce; only the ItemAssetIdParams
and SdsParams paths use a single encoding. -/
theorem both_encodings_on_reader_path (base : String) (n : Option String)
    (bs : Option (List Int)) (h : (strTruthy n || bandsTruthy bs) = true) :
    (itemTilePipeline base n bs).reader_options ≠ [] ∧
    (itemTilePipeline base n bs).input = SdsParams base n bs ∧
    (itemTilePipeline base n bs).input ≠ base := by
  refine ⟨readerParamsOptions_nonempty n bs h, pipeline_input_eq base n bs, ?_⟩
  rw [pipeline_input_eq base n bs]
  exact sdsParams_ne_base base n bs h

/-- Witness for C8's amended statement at a concrete request. -/
theorem both_encodings_on_reader_path_witness :
    (strTruthy (some "sd1") || bandsTruthy (some [1, 2])) = true ∧
    ((itemTilePipeline "s3://bucket/a.tif" (some "sd1") (some [1, 2])).reader_options ≠ [] ∧
      (itemTilePipeline "s3://bucket/a.tif" (some "sd1") (some [1, 2])).input =
        SdsParams "s3://bucket/a.tif" (some "sd1") (some [1, 2]) ∧
      (itemTilePipeline "s3://bucket/a.tif" (some "sd1") (some [1, 2])).input ≠
        "s3://bucket/a.tif") :=
  ⟨by decide,
    both_encodings_on_reader_path "s3://bucket/a.tif" (some "sd1") (some [1, 2])
      (by decide)⟩

/-- C10: the locator resolver and the options builder are total: in an
exception-monad embedding with the same steps, every input yields `ok` of
the pure result; no error branch exists to reach. -/
theorem core_total (url : String) (n : Option String)
    (bs : Option (List Int)) :
    SdsParamsE url n bs = Except.ok (SdsParams url n bs) ∧
    readerParamsOptionsE n bs = Except.ok (readerParamsOptions n bs) := by
  constructor
  · by_cases hc : (mkVrtParams n bs).isEmpty <;>
      simp only [SdsParamsE, SdsParams, hc, if_true, if_false,
        Bool.false_eq_true] <;> rfl
  · rfl

/-- Witness for C6 at the spec's two examples plus the present-but-empty
fallback case. -/
theorem resolveAssetHref_spec_witness :
    resolveAssetHref ⟨"./a.tif", some "https://x/a.tif"⟩ = "https://x/a.tif" ∧
    resolveAssetHref ⟨"./b.tif", some ""⟩ = "./b.tif" ∧
    resolveAssetHref ⟨"./a.tif", none⟩ = "./a.tif" :=
  ⟨(resolveAssetHref_spec _).1 _ rfl (by decide),
    (resolveAssetHref_spec _).2.1 _ rfl (by decide),
    (resolveAssetHref_spec _).2.2 rfl⟩

end EoRaster
